import Mathlib

/-!
Shallow embedding of the worldvious-client self-reporting agent
(kubevious/worldvious-client), following the latest snapshot of
WorldviousClient in the sources.  Pure methods become Lean functions;
the stateful scheduler becomes explicit state passing: every operation
returns the new client state paired with the list of observable actions
it performed (request issued, job body started, timer armed or
cancelled, pre-schedule hook fired, listener invoked).  The outbound
transport is modelled at the reporter boundary: a request is an emitted
action, and its completion (the promise chain resuming) arrives later
as a separate event carrying the outcome.  Asynchronous listener
invocations (the resolved-promise continuation used by the trigger
method) are modelled as a queue of deferred calls drained by their own
event.
-/

namespace Worldvious

/-- Names of the four recurring report jobs (the ReportActions values
in the source). -/
inductive JobName
  | versionCheck
  | reportError
  | reportCounters
  | reportMetrics
deriving DecidableEq, Repr

/-- Opaque key-value data carried by counters, metrics and feedback answers. -/
abbrev Blob := List (String × String)

/-- One notification item returned by the collector.  The client treats the
item as opaque apart from its kind field, so the remaining data is kept
as an opaque blob. -/
structure NotificationItem where
  kind : String
  fields : Blob
deriving DecidableEq, Repr

/-- Per-job configuration resolved once in the constructor (the JobConfig
interface in the source). -/
structure JobConfig where
  enabled : Bool
  delaySeconds : Int
  disableEnvName : String
  overrideEnvName : String
  shouldStartImmediately : Bool
deriving DecidableEq, Repr

/-- A registered job (the JobInfo interface): its resolved interval in
seconds and whether a preScheduleCb was attached.  In the source the only
pre-schedule callback is the one attached to the report-error job, and it
resets the first-error latch, so the callback itself is determined by
this flag. -/
structure JobInfo where
  seconds : Int
  hasPreScheduleCb : Bool
deriving DecidableEq, Repr

/-- A JSON request body: the two fields of makeNewData plus the
per-request fields.  Absent keys are none. -/
structure Payload where
  id : Option String
  process : Option String
  version : Option String
  error : Option String
  count : Option Nat
  counters : Option Blob
  metrics : Option Blob
  feedbackId : Option String
  answers : Option Blob
deriving DecidableEq, Repr

/-- Observable actions of the client: a job body starting, an HTTP request
being issued, a timer being armed or cancelled, the pre-schedule hook
firing, and a notification listener being invoked. -/
inductive Effect
  | execStart (j : JobName)
  | request (path : String) (data : Payload)
  | armTimer (j : JobName) (seconds : Int)
  | cancelTimer (j : JobName)
  | preArmHook (j : JobName)
  | listenerCall (i : Nat) (notifs : List NotificationItem)
deriving DecidableEq, Repr

/-- A JavaScript error value as seen by getErrorString: null or undefined,
or an object with an optional stack property and a toString rendering.
A stack property holding the empty string is falsy in JavaScript, so the
truthiness test on it is modelled explicitly. -/
inductive JsError
  | nullOrUndef
  | obj (stack : Option String) (str : String)
deriving DecidableEq, Repr

/-- Outcome of an in-flight job body, delivered when its promise chain
resumes: the version-check body receives the parsed response on success;
any body may fail (rejected transport promise), which the handler catches. -/
inductive BodyOutcome
  | success (notifs : List NotificationItem)
  | failure
deriving DecidableEq, Repr

/-- The whole mutable state of a WorldviousClient instance. -/
structure ClientState where
  name : String
  version : String
  enabled : Bool
  id : Option String
  closed : Bool
  isFirstErrorReported : Bool
  jobConfigs : JobName → JobConfig
  timers : JobName → Bool
  jobs : JobName → Option JobInfo
  jobRuntime : JobName → Bool
  counters : Blob
  metrics : Blob
  errors : List (String × Nat)
  versionCheckResult : List NotificationItem
  listeners : List Nat
  pendingCalls : List Nat

/-- Update a per-job map at one job name. -/
def upd {α : Type} (m : JobName → α) (j : JobName) (v : α) : JobName → α :=
  fun k => if k = j then v else m k

/-- The process environment, as the client reads it. -/
abbrev EnvMap := String → Option String

/-- JavaScript truthiness of an environment value: present and nonempty. -/
def envTruthy (env : EnvMap) (key : String) : Bool :=
  match env key with
  | some s => s ≠ ""
  | none => false

/-- Accumulate decimal digits, stopping at the first non-digit, as
Number.parseInt does; none when no digit was consumed. -/
def parseDigits : List Char → Option Nat → Option Nat
  | [], acc => acc
  | c :: rest, acc =>
    if c.isDigit then
      parseDigits rest (some ((acc.getD 0) * 10 + (c.toNat - 48)))
    else acc

/-- Model of Number.parseInt for decimal input: optional leading spaces and
sign, then the longest digit run; none (NaN) when no digit is found. -/
def parseIntJS (s : String) : Option Int :=
  let cs := s.toList.dropWhile (fun c => c = ' ')
  match cs with
  | '-' :: rest => (parseDigits rest none).map (fun n => -(n : Int))
  | '+' :: rest => (parseDigits rest none).map (fun n => (n : Int))
  | _ => (parseDigits cs none).map (fun n => (n : Int))

/-- The compiled-in job configurations installed by the constructor. -/
def defaultConfigs : JobName → JobConfig
  | JobName.versionCheck =>
      ⟨true, 3600, "WORLDVIOUS_VERSION_CHECK_DISABLE",
        "WORLDVIOUS_VERSION_CHECK_TIMEOUT", true⟩
  | JobName.reportError =>
      ⟨true, 60, "WORLDVIOUS_ERROR_REPORT_DISABLE",
        "WORLDVIOUS_ERROR_REPORT_TIMEOUT", false⟩
  | JobName.reportCounters =>
      ⟨true, 3600, "WORLDVIOUS_COUNTERS_REPORT_DISABLE",
        "WORLDVIOUS_COUNTERS_REPORT_TIMEOUT", false⟩
  | JobName.reportMetrics =>
      ⟨true, 3600, "WORLDVIOUS_METRICS_REPORT_DISABLE",
        "WORLDVIOUS_METRICS_REPORT_TIMEOUT", false⟩

/-- The constructor: record identity and version, decide global enablement
from WORLDVIOUS_ID and WORLDVIOUS_URL, and disable each job when the
client is globally disabled or its disable flag is set. -/
def createClient (env : EnvMap) (processName processVersion : String) : ClientState :=
  let id := env "WORLDVIOUS_ID"
  let enabled := envTruthy env "WORLDVIOUS_ID" && envTruthy env "WORLDVIOUS_URL"
  let configs := fun j =>
    let c := defaultConfigs j
    if enabled = false then { c with enabled := false }
    else if envTruthy env c.disableEnvName then { c with enabled := false }
    else c
  { name := processName
    version := processVersion
    enabled := enabled
    id := id
    closed := false
    isFirstErrorReported := false
    jobConfigs := configs
    timers := fun _ => false
    jobs := fun _ => none
    jobRuntime := fun _ => false
    counters := []
    metrics := []
    errors := []
    versionCheckResult := []
    listeners := []
    pendingCalls := [] }

/-- Whether a job is registered with a pre-schedule callback; in the
schedule method only the report-error job gets one (the latch reset). -/
def hasPreHook : JobName → Bool
  | JobName.reportError => true
  | _ => false

/-- The interval resolution in the register method: start from the
compiled-in delay, and when the override environment variable is truthy
and parses as an integer, use the parsed value; on parse failure keep
the default silently. -/
def computeSeconds (env : EnvMap) (c : JobConfig) : Int :=
  match env c.overrideEnvName with
  | some v =>
      if v ≠ "" then
        match parseIntJS v with
        | some n => n
        | none => c.delaySeconds
      else c.delaySeconds
  | none => c.delaySeconds

/-- The register method: skip a disabled job, otherwise record the job
with its resolved interval and reset its runtime state. -/
def registerJob (env : EnvMap) (s : ClientState) (j : JobName) : ClientState :=
  if (s.jobConfigs j).enabled = false then s
  else
    { s with
      jobs := upd s.jobs j (some ⟨computeSeconds env (s.jobConfigs j), hasPreHook j⟩)
      jobRuntime := upd s.jobRuntime j false }

/-- The schedule method: register the four jobs in declaration order. -/
def schedule (env : EnvMap) (s : ClientState) : ClientState :=
  registerJob env
    (registerJob env
      (registerJob env
        (registerJob env s JobName.versionCheck)
        JobName.reportError)
      JobName.reportCounters)
    JobName.reportMetrics

/-- The makeNewData helper: a body holding only id and process. -/
def makeNewData (s : ClientState) : Payload :=
  { id := s.id, process := some s.name, version := none, error := none,
    count := none, counters := none, metrics := none, feedbackId := none,
    answers := none }

/-- The payload batch built by reportError: one payload per pending error
entry, each carrying id, process, version, the error signature and its
occurrence count. -/
def reportErrorPayloads (s : ClientState) : List Payload :=
  s.errors.map (fun e =>
    { makeNewData s with
        version := some s.version, error := some e.1, count := some e.2 })

/-- The reportError body: a no-op when nothing is pending; otherwise build
the batch, clear the pending map at once (before anything is sent), and
issue the requests in batch order (the serial combinator sends them one
after another; the ordered list renders that sequence). -/
def reportErrorBody (s : ClientState) : ClientState × List Effect :=
  if s.errors.length = 0 then (s, [])
  else
    ({ s with errors := [] },
      (reportErrorPayloads s).map (Effect.request "report/error"))

/-- What each job body does when it starts: the requests it issues at once
and the state it leaves for the in-flight period.  The version-check
response is processed later, at completion. -/
def bodyStart (s : ClientState) (j : JobName) : ClientState × List Effect :=
  match j with
  | JobName.versionCheck =>
      (s, [Effect.request "report/version"
            { makeNewData s with version := some s.version }])
  | JobName.reportError => reportErrorBody s
  | JobName.reportCounters =>
      (s, [Effect.request "report/counters"
            { makeNewData s with counters := some s.counters }])
  | JobName.reportMetrics =>
      (s, [Effect.request "report/metrics"
            { makeNewData s with metrics := some s.metrics }])

/-- The scheduled branch of runJob (executeNow false): bail out when the
client is closed, the job disabled or unregistered; when no timer is
pending, fire the pre-schedule callback (which resets the first-error
latch) and arm a fresh timer for the job's interval. -/
def runJobScheduled (s : ClientState) (j : JobName) : ClientState × List Effect :=
  if s.closed then (s, [])
  else if (s.jobConfigs j).enabled = false then (s, [])
  else
    match s.jobs j with
    | none => (s, [])
    | some job =>
        if s.timers j then (s, [])
        else
          let pre := if job.hasPreScheduleCb then [Effect.preArmHook j] else []
          let s1 := if job.hasPreScheduleCb then { s with isFirstErrorReported := false } else s
          ({ s1 with timers := upd s1.timers j true },
            pre ++ [Effect.armTimer j job.seconds])

/-- The handler closure in runJob: when the job is already running the
trigger is converted into a scheduled rearm and the body is not invoked;
otherwise mark the job running and start its body. -/
def handler (s : ClientState) (j : JobName) : ClientState × List Effect :=
  if s.jobRuntime j then runJobScheduled s j
  else
    let s1 := { s with jobRuntime := upd s.jobRuntime j true }
    let r := bodyStart s1 j
    (r.1, Effect.execStart j :: r.2)

/-- The stopScheduledJob method: cancel and forget the pending timer. -/
def stopScheduledJob (s : ClientState) (j : JobName) : ClientState × List Effect :=
  if s.timers j then
    ({ s with timers := upd s.timers j false }, [Effect.cancelTimer j])
  else (s, [])

/-- The runJob method.  The executeNow false branch is runJobScheduled
(factored out so that the handler can refer to it without mutual
recursion); the executeNow true branch repeats the source's guards, then
cancels any pending timer and invokes the handler inline. -/
def runJob (s : ClientState) (j : JobName) (executeNow : Bool) : ClientState × List Effect :=
  if executeNow then
    if s.closed then (s, [])
    else if (s.jobConfigs j).enabled = false then (s, [])
    else
      match s.jobs j with
      | none => (s, [])
      | some _ =>
          let p := stopScheduledJob s j
          let q := handler p.1 j
          (q.1, p.2 ++ q.2)
  else runJobScheduled s j

/-- A pending timer firing: the timeout callback removes the timer from
the map and invokes the handler. -/
def timerFire (s : ClientState) (j : JobName) : ClientState × List Effect :=
  if s.timers j then
    handler { s with timers := upd s.timers j false } j
  else (s, [])

/-- The activateNewVersionInfo method: the response wholesale-replaces the
held notification state, and every registered listener has one deferred
invocation scheduled through the trigger method. -/
def activateNewVersionInfo (s : ClientState) (notifs : List NotificationItem) :
    ClientState :=
  { s with
    versionCheckResult := notifs
    pendingCalls := s.pendingCalls ++ s.listeners }

/-- An in-flight body's promise chain resuming with its outcome: the
version-check body processes a successful response first; the handler's
continuation then clears the running flag (its catch step swallows a
failure) and rearms the job through runJob with executeNow false. -/
def bodyComplete (s : ClientState) (j : JobName) (o : BodyOutcome) :
    ClientState × List Effect :=
  if s.jobRuntime j then
    let s1 :=
      if j = JobName.versionCheck then
        match o with
        | BodyOutcome.success notifs => activateNewVersionInfo s notifs
        | BodyOutcome.failure => s
      else s
    runJobScheduled { s1 with jobRuntime := upd s1.jobRuntime j false } j
  else (s, [])

/-- The getErrorString method: the sentinel for null or undefined, the
stack when it is truthy, the toString rendering otherwise. -/
def getErrorString : JsError → String
  | JsError.nullOrUndef => "UNDEFINED ERROR"
  | JsError.obj stack str =>
      match stack with
      | some st => if st ≠ "" then st else str
      | none => str

/-- The pending-error map update in acceptError: increment the entry for
the signature in place, or append a fresh entry with count one.  The
association list mirrors a JavaScript object keyed by the signature
(insertion order preserved, keyed update in place). -/
def bumpError : List (String × Nat) → String → List (String × Nat)
  | [], sig => [(sig, 1)]
  | (k, v) :: rest, sig =>
      if k = sig then (k, v + 1) :: rest
      else (k, v) :: bumpError rest sig

/-- Keyed access into the pending-error map. -/
def lookupSig : List (String × Nat) → String → Option Nat
  | [], _ => none
  | (k, v) :: rest, t => if k = t then some v else lookupSig rest t

/-- Occurrences of a signature in a list of signatures. -/
def countOcc : List String → String → Nat
  | [], _ => 0
  | a :: rest, t => (if a = t then 1 else 0) + countOcc rest t

/-- The acceptError method: fold the error's signature into the pending
map; on the first error since the latch was last reset, set the latch and
run the report-error job immediately. -/
def acceptError (s : ClientState) (e : JsError) : ClientState × List Effect :=
  let sig := getErrorString e
  let s1 := { s with errors := bumpError s.errors sig }
  if s1.isFirstErrorReported = false then
    runJob { s1 with isFirstErrorReported := true } JobName.reportError true
  else (s1, [])

/-- The acceptCounters method: wholesale replacement of the snapshot. -/
def acceptCounters (s : ClientState) (v : Blob) : ClientState :=
  { s with counters := v }

/-- The acceptMetrics method: wholesale replacement of the snapshot. -/
def acceptMetrics (s : ClientState) (v : Blob) : ClientState :=
  { s with metrics := v }

/-- The close method: mark the client closed and cancel every timer. -/
def close (s : ClientState) : ClientState :=
  { s with closed := true, timers := fun _ => false }

/-- The reportFeedback method: a silent no-op when the identity is falsy,
otherwise a single request with id, feedbackId and answers; no other
state is touched. -/
def reportFeedback (s : ClientState) (fid : String) (ans : Blob) :
    ClientState × List Effect :=
  match s.id with
  | none => (s, [])
  | some i =>
      if i = "" then (s, [])
      else
        (s, [Effect.request "report/feedback"
              { id := some i, process := none, version := none, error := none,
                count := none, counters := none, metrics := none,
                feedbackId := some fid, answers := some ans }])

/-- The trigger method: the listener invocation is wrapped in a
resolved-promise continuation, so the method itself performs no call; it
only schedules one deferred invocation, which reads the notification
state when it eventually runs. -/
def trigger (s : ClientState) (i : Nat) : ClientState × List Effect :=
  ({ s with pendingCalls := s.pendingCalls ++ [i] }, [])

/-- The onNotificationsChanged method: append the listener to the registry
and pass it to the trigger method. -/
def onNotificationsChanged (s : ClientState) : ClientState × List Effect :=
  let i := s.listeners.length
  let s1 := { s with listeners := s.listeners ++ [i] }
  trigger s1 i

/-- One deferred listener invocation being delivered (the scheduled
continuation running): it receives the notification state held at
delivery time. -/
def drainOne (s : ClientState) : ClientState × List Effect :=
  match s.pendingCalls with
  | [] => (s, [])
  | i :: rest =>
      ({ s with pendingCalls := rest },
        [Effect.listenerCall i s.versionCheckResult])

/-- The init method: schedule (register) the four jobs, then run each in
key order, immediately when the job is configured to start immediately
and as a scheduled arm otherwise. -/
def initClient (env : EnvMap) (s : ClientState) : ClientState × List Effect :=
  let s1 := schedule env s
  let r1 := runJob s1 JobName.versionCheck
    (s1.jobConfigs JobName.versionCheck).shouldStartImmediately
  let r2 := runJob r1.1 JobName.reportError
    (r1.1.jobConfigs JobName.reportError).shouldStartImmediately
  let r3 := runJob r2.1 JobName.reportCounters
    (r2.1.jobConfigs JobName.reportCounters).shouldStartImmediately
  let r4 := runJob r3.1 JobName.reportMetrics
    (r3.1.jobConfigs JobName.reportMetrics).shouldStartImmediately
  (r4.1, r1.2 ++ r2.2 ++ r3.2 ++ r4.2)

/-- The triggers that can reach a live client after construction: a timer
firing, an in-flight body completing, the accept methods, a subscription,
a deferred listener invocation being delivered, and a close call.  The
reportFeedback host call is modelled separately above. -/
inductive Event
  | timerFireEv (j : JobName)
  | bodyCompleteEv (j : JobName) (o : BodyOutcome)
  | acceptErrorEv (e : JsError)
  | acceptCountersEv (v : Blob)
  | acceptMetricsEv (v : Blob)
  | subscribeEv
  | drainEv
  | closeEv
deriving Repr

/-- Dispatch one event against the client state. -/
def step (s : ClientState) (ev : Event) : ClientState × List Effect :=
  match ev with
  | Event.timerFireEv j => timerFire s j
  | Event.bodyCompleteEv j o => bodyComplete s j o
  | Event.acceptErrorEv e => acceptError s e
  | Event.acceptCountersEv v => (acceptCounters s v, [])
  | Event.acceptMetricsEv v => (acceptMetrics s v, [])
  | Event.subscribeEv => onNotificationsChanged s
  | Event.drainEv => drainOne s
  | Event.closeEv => (close s, [])

/-- Run a sequence of events, collecting every performed action. -/
def runEvents : ClientState → List Event → ClientState × List Effect
  | s, [] => (s, [])
  | s, ev :: rest =>
      let r := step s ev
      let r2 := runEvents r.1 rest
      (r2.1, r.2 ++ r2.2)

/-- An action that neither starts a job body nor issues an HTTP request. -/
def benign : Effect → Bool
  | Effect.execStart _ => false
  | Effect.request _ _ => false
  | _ => true

/-- Whether an action arms a timer for the given job. -/
def armsTimerFor (j : JobName) : Effect → Bool
  | Effect.armTimer k _ => k = j
  | _ => false

/-- A concrete environment carrying both required settings and no
overrides, for evaluating the development on closed inputs. -/
def envFull : EnvMap := fun k =>
  if k = "WORLDVIOUS_ID" then some "id1"
  else if k = "WORLDVIOUS_URL" then some "url1"
  else none

/-- A freshly constructed and fully registered client over envFull. -/
def readyState : ClientState :=
  schedule envFull (createClient envFull "proc" "1.0.0")

/-- A client whose counters job is in flight while a timer armed by a
skipped trigger is still pending for it. -/
def busyTimerState : ClientState :=
  { readyState with
      jobRuntime := upd readyState.jobRuntime JobName.reportCounters true
      timers := upd readyState.timers JobName.reportCounters true }

/-- A client with two pending error signatures and the first-error latch
already set. -/
def twoErrorsState : ClientState :=
  { readyState with
      errors := [("sig1", 2), ("sig2", 1)]
      isFirstErrorReported := true }

end Worldvious

namespace Worldvious

@[simp] theorem upd_self {α : Type} (m : JobName → α) (j : JobName) (v : α) :
    upd m j v j = v := by simp [upd]

@[simp] theorem upd_ne {α : Type} (m : JobName → α) (j k : JobName) (v : α)
    (h : k ≠ j) : upd m j v k = m k := by simp [upd, h]

theorem lookupSig_bump_self (m : List (String × Nat)) (sig : String) :
    lookupSig (bumpError m sig) sig = some ((lookupSig m sig).getD 0 + 1) := by
  induction m with
  | nil => simp [bumpError, lookupSig]
  | cons hd tl ih =>
      obtain ⟨k, v⟩ := hd
      by_cases h : k = sig
      · subst h; simp [bumpError, lookupSig]
      · simp [bumpError, lookupSig, h, ih]

theorem lookupSig_bump_other (m : List (String × Nat)) (sig t : String)
    (h : t ≠ sig) : lookupSig (bumpError m sig) t = lookupSig m t := by
  induction m with
  | nil => simp [bumpError, lookupSig, Ne.symm h]
  | cons hd tl ih =>
      obtain ⟨k, v⟩ := hd
      by_cases hk : k = sig
      · subst hk; simp [bumpError, lookupSig, Ne.symm h]
      · by_cases hkt : k = t
        · subst hkt; simp [bumpError, lookupSig, hk]
        · simp [bumpError, lookupSig, hk, hkt, ih]

theorem foldl_bump_getD (sigs : List String) (m : List (String × Nat)) (t : String) :
    (lookupSig (sigs.foldl bumpError m) t).getD 0 =
      (lookupSig m t).getD 0 + countOcc sigs t := by
  induction sigs generalizing m with
  | nil => simp [countOcc]
  | cons a rest ih =>
      simp only [List.foldl_cons]
      rw [ih]
      by_cases h : a = t
      · subst h
        rw [lookupSig_bump_self]
        simp [countOcc]
        omega
      · rw [lookupSig_bump_other m a t (Ne.symm h)]
        simp [countOcc, h]

theorem foldl_bump_isSome (sigs : List String) (m : List (String × Nat)) (t : String) :
    (lookupSig (sigs.foldl bumpError m) t).isSome =
      ((lookupSig m t).isSome || decide (0 < countOcc sigs t)) := by
  induction sigs generalizing m with
  | nil => simp [countOcc]
  | cons a rest ih =>
      simp only [List.foldl_cons]
      rw [ih]
      by_cases h : a = t
      · subst h
        rw [lookupSig_bump_self]
        simp [countOcc]
      · rw [lookupSig_bump_other m a t (Ne.symm h)]
        simp [countOcc, h]

theorem lookupSig_foldl_bump_nil (sigs : List String) (t : String) :
    lookupSig (sigs.foldl bumpError []) t =
      if 0 < countOcc sigs t then some (countOcc sigs t) else none := by
  have h1 := foldl_bump_getD sigs [] t
  have h2 := foldl_bump_isSome sigs [] t
  simp only [lookupSig, Option.getD_none, Option.isSome_none, Bool.false_or] at h1 h2
  cases hL : lookupSig (sigs.foldl bumpError []) t with
  | none =>
      rw [hL] at h2
      simp only [Option.isSome_none] at h2
      have : ¬ 0 < countOcc sigs t := by
        intro hc
        simp [hc] at h2
      simp [this]
  | some v =>
      rw [hL] at h1 h2
      simp only [Option.getD_some, Option.isSome_some] at h1 h2
      have hc : 0 < countOcc sigs t := by
        by_contra hc
        simp [hc] at h2
      rw [if_pos hc]
      have hv : v = countOcc sigs t := by omega
      rw [hv]

theorem lookupSig_eq_none_iff (m : List (String × Nat)) (t : String) :
    lookupSig m t = none ↔ t ∉ m.map Prod.fst := by
  induction m with
  | nil => simp [lookupSig]
  | cons hd tl ih =>
      obtain ⟨k, v⟩ := hd
      by_cases h : k = t
      · subst h; simp [lookupSig]
      · simp [lookupSig, h, ih, Ne.symm h]

theorem bump_keys_of_isSome (m : List (String × Nat)) (sig : String)
    (h : (lookupSig m sig).isSome = true) :
    (bumpError m sig).map Prod.fst = m.map Prod.fst := by
  induction m with
  | nil => simp [lookupSig] at h
  | cons hd tl ih =>
      obtain ⟨k, v⟩ := hd
      by_cases hk : k = sig
      · subst hk; simp [bumpError]
      · simp only [lookupSig, if_neg hk] at h
        simp [bumpError, hk, ih h]

theorem bump_keys_of_none (m : List (String × Nat)) (sig : String)
    (h : lookupSig m sig = none) :
    (bumpError m sig).map Prod.fst = m.map Prod.fst ++ [sig] := by
  induction m with
  | nil => simp [bumpError]
  | cons hd tl ih =>
      obtain ⟨k, v⟩ := hd
      by_cases hk : k = sig
      · subst hk; simp [lookupSig] at h
      · simp only [lookupSig, if_neg hk] at h
        simp [bumpError, hk, ih h]

theorem nodup_bump (m : List (String × Nat)) (sig : String)
    (h : (m.map Prod.fst).Nodup) : ((bumpError m sig).map Prod.fst).Nodup := by
  cases hs : lookupSig m sig with
  | none =>
      rw [bump_keys_of_none m sig hs]
      have hmem : sig ∉ m.map Prod.fst := (lookupSig_eq_none_iff m sig).mp hs
      simp [List.nodup_append, h, hmem]
  | some v =>
      rw [bump_keys_of_isSome m sig (by simp [hs])]
      exact h

theorem nodup_foldl_bump (sigs : List String) (m : List (String × Nat))
    (h : (m.map Prod.fst).Nodup) :
    (((sigs.foldl bumpError m)).map Prod.fst).Nodup := by
  induction sigs generalizing m with
  | nil => exact h
  | cons a rest ih =>
      simp only [List.foldl_cons]
      exact ih (bumpError m a) (nodup_bump m a h)

theorem filter_eq_nil_of_not_mem (m : List (String × Nat)) (t : String)
    (h : t ∉ m.map Prod.fst) :
    m.filter (fun e => decide (e.1 = t)) = [] := by
  induction m with
  | nil => rfl
  | cons hd tl ih =>
      obtain ⟨k, v⟩ := hd
      simp only [List.map_cons, List.mem_cons, not_or] at h
      have hk : ¬ (k = t) := fun hh => h.1 hh.symm
      simp [List.filter_cons, hk, ih h.2]

theorem filter_eq_singleton (m : List (String × Nat)) (t : String) (c : Nat)
    (hnd : (m.map Prod.fst).Nodup) (h : lookupSig m t = some c) :
    m.filter (fun e => decide (e.1 = t)) = [(t, c)] := by
  induction m with
  | nil => simp [lookupSig] at h
  | cons hd tl ih =>
      obtain ⟨k, v⟩ := hd
      simp only [List.map_cons, List.nodup_cons] at hnd
      by_cases hk : k = t
      · subst hk
        simp [lookupSig] at h
        subst h
        simp [List.filter_cons, filter_eq_nil_of_not_mem tl k hnd.1]
      · simp only [lookupSig, if_neg hk] at h
        simp [List.filter_cons, hk, ih hnd.2 h]

theorem filter_payloads (s : ClientState) (sig : String) :
    (reportErrorPayloads s).filter (fun p => decide (p.error = some sig)) =
      (s.errors.filter (fun e => decide (e.1 = sig))).map
        (fun e => { makeNewData s with
                      version := some s.version
                      error := some e.1
                      count := some e.2 }) := by
  unfold reportErrorPayloads
  generalize s.errors = l
  induction l with
  | nil => rfl
  | cons hd tl ih =>
      by_cases h : hd.1 = sig
      · simp [List.filter_cons, h, ih]
      · simp [List.filter_cons, h, ih]

/-- C2: the error flush is a successful no-op on an empty pending map; on
a nonempty map it builds exactly one payload per distinct signature, each
carrying id, process, version, the error signature and its occurrence
count, clears the pending map before any request is sent (the successor
state holds the empty map whatever happens to the sends), and issues the
requests in batch order (rendering the strictly sequential serial send);
counts are never restored, so a later acceptError on the flushed state
starts a fresh count of one. -/
theorem c2_error_flush (s : ClientState)
    (hnd : (s.errors.map Prod.fst).Nodup) :
    (s.errors = [] → reportErrorBody s = (s, [])) ∧
    (s.errors ≠ [] →
      (reportErrorBody s).1 = { s with errors := [] } ∧
      (reportErrorBody s).2 =
        (reportErrorPayloads s).map (Effect.request "report/error")) ∧
    (reportErrorBody s).1.errors = [] ∧
    (∀ p ∈ reportErrorPayloads s,
        p.id = s.id ∧ p.process = some s.name ∧ p.version = some s.version ∧
        p.error.isSome = true ∧ p.count.isSome = true) ∧
    (∀ sig c, lookupSig s.errors sig = some c →
        (reportErrorPayloads s).filter (fun p => decide (p.error = some sig)) =
          [{ makeNewData s with
               version := some s.version
               error := some sig
               count := some c }]) ∧
    (∀ sig, lookupSig (bumpError (reportErrorBody s).1.errors sig) sig = some 1) := by
  have hclear : (reportErrorBody s).1.errors = [] := by
    by_cases h : s.errors = []
    · simp [reportErrorBody, h]
    · simp [reportErrorBody, List.length_eq_zero, h]
  refine ⟨?_, ?_, hclear, ?_, ?_, ?_⟩
  · intro h
    simp [reportErrorBody, h]
  · intro h
    constructor <;> simp [reportErrorBody, List.length_eq_zero, h]
  · intro p hp
    unfold reportErrorPayloads at hp
    obtain ⟨e, _, rfl⟩ := List.mem_map.mp hp
    simp [makeNewData]
  · intro sig c h
    rw [filter_payloads, filter_eq_singleton s.errors sig c hnd h]
    simp
  · intro sig
    rw [hclear]
    simp [bumpError, lookupSig]

theorem c2_error_flush_witness :
    (twoErrorsState.errors.map Prod.fst).Nodup ∧
    (reportErrorBody twoErrorsState).1.errors = [] ∧
    lookupSig (bumpError (reportErrorBody twoErrorsState).1.errors "sig1") "sig1" =
      some 1 :=
  ⟨by decide, (c2_error_flush twoErrorsState (by decide)).2.2.1,
    (c2_error_flush twoErrorsState (by decide)).2.2.2.2.2 "sig1"⟩

/-- C5: the normalized signature prefers a truthy stack, then the string
rendering, with the sentinel for null or undefined; once the latch is
set, acceptError only folds the signature into the pending map; and for
any sequence of accepted errors starting from an empty batch, the pending
count for a signature equals exactly the number of calls whose value
normalized to that signature, and the flush payload for that signature
carries exactly that count (signatures are never merged). -/
theorem c5_signature_normalization_and_counts :
    getErrorString JsError.nullOrUndef = "UNDEFINED ERROR" ∧
    (∀ str : String, getErrorString (JsError.obj none str) = str) ∧
    (∀ st str : String, st ≠ "" → getErrorString (JsError.obj (some st) str) = st) ∧
    (∀ (s : ClientState) (e : JsError), s.isFirstErrorReported = true →
        acceptError s e =
          ({ s with errors := bumpError s.errors (getErrorString e) }, [])) ∧
    (∀ (es : List JsError) (t : String),
        lookupSig (es.foldl (fun m e => bumpError m (getErrorString e)) []) t =
          if 0 < countOcc (es.map getErrorString) t
          then some (countOcc (es.map getErrorString) t) else none) ∧
    (∀ (es : List JsError) (t : String) (s : ClientState),
        s.errors = es.foldl (fun m e => bumpError m (getErrorString e)) [] →
        0 < countOcc (es.map getErrorString) t →
        (reportErrorPayloads s).filter (fun p => decide (p.error = some t)) =
          [{ makeNewData s with
               version := some s.version
               error := some t
               count := some (countOcc (es.map getErrorString) t) }]) := by
  have hfold : ∀ (es : List JsError),
      es.foldl (fun m e => bumpError m (getErrorString e)) [] =
        (es.map getErrorString).foldl bumpError [] := by
    intro es
    rw [List.foldl_map]
  refine ⟨rfl, ?_, ?_, ?_, ?_, ?_⟩
  · intro str; rfl
  · intro st str h
    simp [getErrorString, h]
  · intro s e h
    simp [acceptError, h]
  · intro es t
    rw [hfold]
    exact lookupSig_foldl_bump_nil (es.map getErrorString) t
  · intro es t s hs hpos
    have hl : lookupSig s.errors t = some (countOcc (es.map getErrorString) t) := by
      rw [hs, hfold, lookupSig_foldl_bump_nil, if_pos hpos]
    have hnd : (s.errors.map Prod.fst).Nodup := by
      rw [hs, hfold]
      exact nodup_foldl_bump (es.map getErrorString) [] (by simp)
    rw [filter_payloads, filter_eq_singleton s.errors t _ hnd hl]
    simp

theorem c5_witness :
    ("trace1" : String) ≠ "" ∧
    getErrorString (JsError.obj (some "trace1") "msg1") = "trace1" ∧
    lookupSig
      ([JsError.nullOrUndef, JsError.obj (some "trace1") "msg1",
        JsError.nullOrUndef].foldl
          (fun m e => bumpError m (getErrorString e)) []) "UNDEFINED ERROR" =
      some 2 :=
  ⟨by decide,
    c5_signature_normalization_and_counts.2.2.1 "trace1" "msg1" (by decide),
    by
      rw [c5_signature_normalization_and_counts.2.2.2.2.1
        [JsError.nullOrUndef, JsError.obj (some "trace1") "msg1",
          JsError.nullOrUndef] "UNDEFINED ERROR"]
      decide⟩

theorem step_closed_inv (s : ClientState) (ev : Event)
    (h1 : s.closed = true) (h2 : ∀ k, s.timers k = false) :
    (step s ev).1.closed = true ∧ (∀ k, (step s ev).1.timers k = false) ∧
    (step s ev).2.all benign = true := by
  cases ev with
  | timerFireEv j =>
      simp only [step, timerFire, h2 j, Bool.false_eq_true, if_false]
      exact ⟨h1, h2, rfl⟩
  | bodyCompleteEv j o =>
      by_cases hr : s.jobRuntime j = true
      · by_cases hv : j = JobName.versionCheck
        · subst hv
          cases o <;>
            simp [step, bodyComplete, hr, activateNewVersionInfo,
              runJobScheduled, h1, h2]
        · cases o <;>
            simp [step, bodyComplete, hr, hv, runJobScheduled, h1, h2]
      · simp [step, bodyComplete, hr, h1, h2]
  | acceptErrorEv e =>
      by_cases hf : s.isFirstErrorReported = false
      · simp [step, acceptError, hf, runJob, h1]
        exact h2
      · simp [step, acceptError, hf, h1]
        exact h2
  | acceptCountersEv v =>
      simp [step, acceptCounters, h1]
      exact h2
  | acceptMetricsEv v =>
      simp [step, acceptMetrics, h1]
      exact h2
  | subscribeEv =>
      simp [step, onNotificationsChanged, trigger, h1]
      exact h2
  | drainEv =>
      cases hp : s.pendingCalls with
      | nil => simp [step, drainOne, hp, h1]; exact h2
      | cons i rest => simp [step, drainOne, hp, h1, benign]; exact h2
  | closeEv =>
      simp [step, close]

theorem runEvents_closed_inv (evs : List Event) :
    ∀ s : ClientState, s.closed = true → (∀ k, s.timers k = false) →
      (runEvents s evs).1.closed = true ∧ (runEvents s evs).2.all benign = true := by
  induction evs with
  | nil =>
      intro s h1 _
      simpa [runEvents] using h1
  | cons ev rest ih =>
      intro s h1 h2
      obtain ⟨c1, c2, c3⟩ := step_closed_inv s ev h1 h2
      obtain ⟨d1, d2⟩ := ih (step s ev).1 c1 c2
      simp [runEvents, List.all_append, c3, d1, d2]

/-- C3: after close, the client is marked closed and every pending timer
is cancelled, and any further sequence of triggers (timers firing, bodies
completing and rearming, acceptError immediate runs, the other accept
calls, subscriptions, deferred listener deliveries, repeated closes)
starts no job execution and issues no HTTP request for the remaining
lifetime of the client. -/
theorem c3_close_halts_everything (s : ClientState) (evs : List Event) :
    (close s).closed = true ∧
    (∀ k, (close s).timers k = false) ∧
    (runEvents (close s) evs).2.all benign = true ∧
    (runEvents (close s) evs).1.closed = true := by
  have h := runEvents_closed_inv evs (close s) rfl (fun _ => rfl)
  exact ⟨rfl, fun _ => rfl, h.2, h.1⟩

theorem step_disabled_inv (s : ClientState) (ev : Event)
    (hd : ∀ k, (s.jobConfigs k).enabled = false)
    (ht : ∀ k, s.timers k = false)
    (hr : ∀ k, s.jobRuntime k = false) :
    (∀ k, ((step s ev).1.jobConfigs k).enabled = false) ∧
    (∀ k, (step s ev).1.timers k = false) ∧
    (∀ k, (step s ev).1.jobRuntime k = false) ∧
    (step s ev).2.all benign = true := by
  cases ev with
  | timerFireEv j =>
      simp only [step, timerFire, ht j, Bool.false_eq_true, if_false]
      exact ⟨hd, ht, hr, rfl⟩
  | bodyCompleteEv j o =>
      simp only [step, bodyComplete, hr j, Bool.false_eq_true, if_false]
      exact ⟨hd, ht, hr, rfl⟩
  | acceptErrorEv e =>
      by_cases hf : s.isFirstErrorReported = false
      · by_cases hc : s.closed = true <;>
          simp [step, acceptError, hf, runJob, hc, hd, ht, hr]
      · simp [step, acceptError, hf, hd, ht, hr]
  | acceptCountersEv v =>
      simp [step, acceptCounters, hd, ht, hr]
  | acceptMetricsEv v =>
      simp [step, acceptMetrics, hd, ht, hr]
  | subscribeEv =>
      simp [step, onNotificationsChanged, trigger, hd, ht, hr]
  | drainEv =>
      cases hp : s.pendingCalls with
      | nil => simp [step, drainOne, hp, hd, ht, hr]
      | cons i rest => simp [step, drainOne, hp, hd, ht, hr, benign]
  | closeEv =>
      simp [step, close, hd, hr]

theorem runEvents_disabled_inv (evs : List Event) :
    ∀ s : ClientState,
      (∀ k, (s.jobConfigs k).enabled = false) →
      (∀ k, s.timers k = false) →
      (∀ k, s.jobRuntime k = false) →
      (∀ k, ((runEvents s evs).1.jobConfigs k).enabled = false) ∧
      (runEvents s evs).2.all benign = true := by
  induction evs with
  | nil =>
      intro s hd _ _
      simpa [runEvents] using hd
  | cons ev rest ih =>
      intro s hd ht hr
      obtain ⟨c1, c2, c3, c4⟩ := step_disabled_inv s ev hd ht hr
      obtain ⟨d1, d2⟩ := ih (step s ev).1 c1 c2 c3
      simp [runEvents, List.all_append, c4, d1, d2]

theorem createClient_disabled (env : EnvMap) (nm ver : String)
    (h : envTruthy env "WORLDVIOUS_ID" = false ∨
         envTruthy env "WORLDVIOUS_URL" = false) :
    ∀ k, ((createClient env nm ver).jobConfigs k).enabled = false := by
  intro k
  have hone : (envTruthy env "WORLDVIOUS_ID" &&
      envTruthy env "WORLDVIOUS_URL") = false := by
    rcases h with h | h <;> simp [h]
  simp [createClient, hone]

theorem initClient_of_disabled (env : EnvMap) (s : ClientState)
    (hd : ∀ k, (s.jobConfigs k).enabled = false) :
    initClient env s = (s, []) := by
  have hreg : schedule env s = s := by
    simp [schedule, registerJob, hd]
  have hrj : ∀ (j : JobName) (b : Bool), runJob s j b = (s, []) := by
    intro j b
    by_cases hc : s.closed = true <;>
      cases b <;> simp [runJob, runJobScheduled, hc, hd j]
  simp [initClient, hreg, hrj]

/-- C4: when WORLDVIOUS_ID or WORLDVIOUS_URL is not truthy at
construction, every job is disabled at construction and stays disabled,
init registers nothing and performs nothing, and no sequence of
subsequent triggers (timers, accept calls, completions, subscriptions,
closes) ever starts a job body or issues an HTTP request. -/
theorem c4_absent_config_disables_everything (env : EnvMap) (nm ver : String)
    (evs : List Event)
    (h : envTruthy env "WORLDVIOUS_ID" = false ∨
         envTruthy env "WORLDVIOUS_URL" = false) :
    (∀ k, ((createClient env nm ver).jobConfigs k).enabled = false) ∧
    initClient env (createClient env nm ver) = (createClient env nm ver, []) ∧
    (runEvents (createClient env nm ver) evs).2.all benign = true ∧
    (∀ k, (((runEvents (createClient env nm ver) evs).1).jobConfigs k).enabled
      = false) := by
  have hd := createClient_disabled env nm ver h
  have hrun := runEvents_disabled_inv evs (createClient env nm ver) hd
    (fun _ => rfl) (fun _ => rfl)
  exact ⟨hd, initClient_of_disabled env _ hd, hrun.2, hrun.1⟩

theorem c4_witness :
    envTruthy (fun _ => none) "WORLDVIOUS_ID" = false ∧
    ((createClient (fun _ => none) "p" "v").jobConfigs
        JobName.versionCheck).enabled = false ∧
    (runEvents (createClient (fun _ => none) "p" "v")
        [Event.acceptErrorEv JsError.nullOrUndef,
          Event.timerFireEv JobName.versionCheck, Event.subscribeEv,
          Event.drainEv]).2.all benign = true :=
  ⟨by decide,
    (c4_absent_config_disables_everything (fun _ => none) "p" "v"
      [Event.acceptErrorEv JsError.nullOrUndef,
        Event.timerFireEv JobName.versionCheck, Event.subscribeEv,
        Event.drainEv] (Or.inl (by decide))).1 JobName.versionCheck,
    (c4_absent_config_disables_everything (fun _ => none) "p" "v"
      [Event.acceptErrorEv JsError.nullOrUndef,
        Event.timerFireEv JobName.versionCheck, Event.subscribeEv,
        Event.drainEv] (Or.inl (by decide))).2.2.1⟩

theorem runJobScheduled_arm (j : JobName) (job : JobInfo) (s' : ClientState)
    (h1 : s'.closed = false) (h2 : (s'.jobConfigs j).enabled = true)
    (h3 : s'.jobs j = some job) (h4 : s'.timers j = false) :
    (runJobScheduled s' j).2.all benign = true ∧
    (runJobScheduled s' j).1.jobRuntime j = s'.jobRuntime j ∧
    (runJobScheduled s' j).1.timers j = true ∧
    Effect.armTimer j job.seconds ∈ (runJobScheduled s' j).2 ∧
    (runJobScheduled s' j).1.errors = s'.errors ∧
    (runJobScheduled s' j).1.pendingCalls = s'.pendingCalls := by
  cases hpre : job.hasPreScheduleCb <;>
    simp [runJobScheduled, h1, h2, h3, h4, hpre, benign]

/-- C1: while a job is running, a timer firing for it or an immediate-run
request for it invokes no body and issues no request; the trigger is
converted into arming a fresh timer for the job's interval, the run stays
in flight, and nothing is queued (pending errors and deferred listener
calls are untouched). -/
theorem c1_reentrancy_guard (s : ClientState) (j : JobName) (job : JobInfo)
    (hclosed : s.closed = false)
    (hen : (s.jobConfigs j).enabled = true)
    (hjob : s.jobs j = some job)
    (hrun : s.jobRuntime j = true) :
    (s.timers j = true →
      (timerFire s j).2.all benign = true ∧
      (timerFire s j).1.jobRuntime j = true ∧
      (timerFire s j).1.timers j = true ∧
      Effect.armTimer j job.seconds ∈ (timerFire s j).2 ∧
      (timerFire s j).1.errors = s.errors ∧
      (timerFire s j).1.pendingCalls = s.pendingCalls) ∧
    ((runJob s j true).2.all benign = true ∧
      (runJob s j true).1.jobRuntime j = true ∧
      (runJob s j true).1.timers j = true ∧
      Effect.armTimer j job.seconds ∈ (runJob s j true).2 ∧
      (runJob s j true).1.errors = s.errors ∧
      (runJob s j true).1.pendingCalls = s.pendingCalls) := by
  constructor
  · intro htm
    have e1 : timerFire s j =
        runJobScheduled { s with timers := upd s.timers j false } j := by
      simp [timerFire, htm, handler, hrun]
    have m := runJobScheduled_arm j job { s with timers := upd s.timers j false }
      hclosed hen hjob (by simp)
    rw [e1]
    refine ⟨m.1, ?_, m.2.2.1, m.2.2.2.1, m.2.2.2.2.1, m.2.2.2.2.2⟩
    rw [m.2.1]
    exact hrun
  · by_cases htm : s.timers j = true
    · have e2 : runJob s j true =
          (fun r => (r.1, Effect.cancelTimer j :: r.2))
            (runJobScheduled { s with timers := upd s.timers j false } j) := by
        simp [runJob, hclosed, hen, hjob, stopScheduledJob, htm, handler, hrun]
      have m := runJobScheduled_arm j job { s with timers := upd s.timers j false }
        hclosed hen hjob (by simp)
      rw [e2]
      refine ⟨?_, ?_, m.2.2.1, ?_, m.2.2.2.2.1, m.2.2.2.2.2⟩
      · simp [benign, m.1]
      · rw [m.2.1]; exact hrun
      · simp [m.2.2.2.1]
    · have e3 : runJob s j true = runJobScheduled s j := by
        simp [runJob, hclosed, hen, hjob, stopScheduledJob, htm, handler, hrun]
      have m := runJobScheduled_arm j job s hclosed hen hjob
        (by simpa using htm)
      rw [e3]
      refine ⟨m.1, ?_, m.2.2.1, m.2.2.2.1, m.2.2.2.2.1, m.2.2.2.2.2⟩
      rw [m.2.1]
      exact hrun

theorem c1_witness :
    busyTimerState.jobRuntime JobName.reportCounters = true ∧
    busyTimerState.timers JobName.reportCounters = true ∧
    Effect.armTimer JobName.reportCounters 3600 ∈
      (timerFire busyTimerState JobName.reportCounters).2 ∧
    Effect.armTimer JobName.reportCounters 3600 ∈
      (runJob busyTimerState JobName.reportCounters true).2 :=
  ⟨by decide, by decide,
    ((c1_reentrancy_guard busyTimerState JobName.reportCounters ⟨3600, false⟩
        (by decide) (by decide) (by decide) (by decide)).1 (by decide)).2.2.2.1,
    (c1_reentrancy_guard busyTimerState JobName.reportCounters ⟨3600, false⟩
        (by decide) (by decide) (by decide) (by decide)).2.2.2.2.1⟩

theorem completion_core (j : JobName) (job : JobInfo) (s2 : ClientState)
    (h1 : s2.closed = false) (h2 : (s2.jobConfigs j).enabled = true)
    (h3 : s2.jobs j = some job) (hr2 : s2.jobRuntime j = false) :
    (runJobScheduled s2 j).1.jobRuntime j = false ∧
    (runJobScheduled s2 j).1.jobConfigs = s2.jobConfigs ∧
    (runJobScheduled s2 j).1.jobs = s2.jobs ∧
    (runJobScheduled s2 j).2.all benign = true ∧
    (s2.timers j = false →
      (runJobScheduled s2 j).1.timers j = true ∧
      Effect.armTimer j job.seconds ∈ (runJobScheduled s2 j).2) ∧
    (s2.timers j = true →
      (runJobScheduled s2 j).1.timers j = true ∧
      (runJobScheduled s2 j).2 = []) := by
  by_cases htm : s2.timers j = true
  · simp [runJobScheduled, h1, h2, h3, htm, hr2]
  · cases hpre : job.hasPreScheduleCb <;>
      simp [runJobScheduled, h1, h2, h3, htm, hpre, hr2, benign]

/-- C7, counterexample: a concrete client whose counters job is in flight
while a timer armed by a skipped trigger is still pending.  At body
completion the code clears the running flag but performs no arming action
at all (the effect list of the completion step is empty): the upcoming
run fires at the pending timer's older deadline, so the job is not
re-armed for its interval measured from completion, contradicting the
claim's universally stated fresh fixed-delay rearm. -/
theorem c7_counterexample :
    busyTimerState.jobRuntime JobName.reportCounters = true ∧
    busyTimerState.timers JobName.reportCounters = true ∧
    (bodyComplete busyTimerState JobName.reportCounters BodyOutcome.failure).2
      = [] ∧
    (bodyComplete busyTimerState JobName.reportCounters
        BodyOutcome.failure).1.timers JobName.reportCounters = true := by
  refine ⟨by decide, by decide, by decide, by decide⟩

/-- C7, amended: on every body completion, success or failure, the
completion is absorbed (the step is total and only benign actions occur),
the running flag is cleared and the job is never disabled or
unregistered; when no timer is pending at completion a fresh timer for
the configured interval is armed at that instant, while a timer already
armed by a skipped trigger is left in place and no new timer is armed. -/
theorem c7_completion_caught_and_rearmed (s : ClientState) (j : JobName)
    (job : JobInfo) (o : BodyOutcome)
    (hclosed : s.closed = false)
    (hen : (s.jobConfigs j).enabled = true)
    (hjob : s.jobs j = some job)
    (hrun : s.jobRuntime j = true) :
    (bodyComplete s j o).1.jobRuntime j = false ∧
    (bodyComplete s j o).1.jobConfigs = s.jobConfigs ∧
    (bodyComplete s j o).1.jobs = s.jobs ∧
    (bodyComplete s j o).2.all benign = true ∧
    (s.timers j = false →
      (bodyComplete s j o).1.timers j = true ∧
      Effect.armTimer j job.seconds ∈ (bodyComplete s j o).2) ∧
    (s.timers j = true →
      (bodyComplete s j o).1.timers j = true ∧
      (bodyComplete s j o).2 = []) := by
  by_cases hv : j = JobName.versionCheck
  · subst hv
    cases o with
    | success notifs =>
        have e : bodyComplete s JobName.versionCheck (BodyOutcome.success notifs) =
            runJobScheduled
              { activateNewVersionInfo s notifs with
                  jobRuntime :=
                    upd (activateNewVersionInfo s notifs).jobRuntime
                      JobName.versionCheck false }
              JobName.versionCheck := by
          simp [bodyComplete, hrun]
        rw [e]
        exact completion_core JobName.versionCheck job _ hclosed hen hjob (by simp)
    | failure =>
        have e : bodyComplete s JobName.versionCheck BodyOutcome.failure =
            runJobScheduled
              { s with jobRuntime := upd s.jobRuntime JobName.versionCheck false }
              JobName.versionCheck := by
          simp [bodyComplete, hrun]
        rw [e]
        exact completion_core JobName.versionCheck job _ hclosed hen hjob (by simp)
  · have e : bodyComplete s j o =
        runJobScheduled { s with jobRuntime := upd s.jobRuntime j false } j := by
      cases o <;> simp [bodyComplete, hrun, hv]
    rw [e]
    exact completion_core j job _ hclosed hen hjob (by simp)

theorem c7_completion_witness :
    readyState.jobRuntime JobName.reportError = false ∧
    (bodyComplete
        { readyState with
            jobRuntime := upd readyState.jobRuntime JobName.reportError true }
        JobName.reportError BodyOutcome.failure).1.jobRuntime JobName.reportError
      = false ∧
    Effect.armTimer JobName.reportError 60 ∈
      (bodyComplete
        { readyState with
            jobRuntime := upd readyState.jobRuntime JobName.reportError true }
        JobName.reportError BodyOutcome.failure).2 :=
  ⟨by decide,
    (c7_completion_caught_and_rearmed
      { readyState with
          jobRuntime := upd readyState.jobRuntime JobName.reportError true }
      JobName.reportError ⟨60, true⟩ BodyOutcome.failure
      (by decide) (by decide) (by decide) (by decide)).1,
    ((c7_completion_caught_and_rearmed
      { readyState with
          jobRuntime := upd readyState.jobRuntime JobName.reportError true }
      JobName.reportError ⟨60, true⟩ BodyOutcome.failure
      (by decide) (by decide) (by decide) (by decide)).2.2.2.2.1 (by decide)).2⟩

theorem bumpError_ne_nil (m : List (String × Nat)) (sig : String) :
    bumpError m sig ≠ [] := by
  cases m with
  | nil => simp [bumpError]
  | cons hd tl =>
      obtain ⟨k, v⟩ := hd
      by_cases h : k = sig <;> simp [bumpError, h]

theorem bodyStart_request_only (s : ClientState) (j : JobName) (ef : Effect)
    (h : ef ∈ (bodyStart s j).2) :
    ∃ path data, ef = Effect.request path data := by
  cases j with
  | versionCheck =>
      simp [bodyStart] at h
      exact ⟨_, _, h⟩
  | reportCounters =>
      simp [bodyStart] at h
      exact ⟨_, _, h⟩
  | reportMetrics =>
      simp [bodyStart] at h
      exact ⟨_, _, h⟩
  | reportError =>
      simp only [bodyStart, reportErrorBody] at h
      by_cases he : s.errors.length = 0
      · simp [he] at h
      · simp only [he, if_false, List.mem_map] at h
        obtain ⟨d, _, rfl⟩ := h
        exact ⟨_, _, rfl⟩

/-- C6: an acceptError call while the first-error latch is clear sets the
latch and triggers an immediate out-of-schedule run of the report-error
job, cancelling its pending timer when one exists, and the pre-arm hook
is not fired by that immediate run; an acceptError call while the latch
is set only folds the signature into the pending map and does nothing
else; and whenever a fresh timer for the report-error job is armed, the
pre-arm hook fires exactly once, immediately before the arming action,
resetting the latch, while an actually executing immediate run never
fires the hook. -/
theorem c6_first_error_latch (s : ClientState) (e : JsError) (job : JobInfo)
    (hclosed : s.closed = false)
    (hen : (s.jobConfigs JobName.reportError).enabled = true)
    (hjob : s.jobs JobName.reportError = some job)
    (hrun : s.jobRuntime JobName.reportError = false) :
    (s.isFirstErrorReported = false →
      (acceptError s e).1.isFirstErrorReported = true ∧
      Effect.execStart JobName.reportError ∈ (acceptError s e).2 ∧
      (s.timers JobName.reportError = true →
        Effect.cancelTimer JobName.reportError ∈ (acceptError s e).2) ∧
      Effect.preArmHook JobName.reportError ∉ (acceptError s e).2) ∧
    (s.isFirstErrorReported = true →
      acceptError s e =
        ({ s with errors := bumpError s.errors (getErrorString e) }, [])) ∧
    (∀ (t : ClientState) (job' : JobInfo),
      t.closed = false →
      (t.jobConfigs JobName.reportError).enabled = true →
      t.jobs JobName.reportError = some job' →
      job'.hasPreScheduleCb = true →
      t.timers JobName.reportError = false →
      (runJobScheduled t JobName.reportError).2 =
        [Effect.preArmHook JobName.reportError,
          Effect.armTimer JobName.reportError job'.seconds] ∧
      (runJobScheduled t JobName.reportError).1.isFirstErrorReported = false) ∧
    (∀ (t : ClientState) (k : JobName), t.jobRuntime k = false →
      Effect.preArmHook k ∉ (runJob t k true).2) := by
  refine ⟨?_, ?_, ?_, ?_⟩
  · intro hf
    by_cases htm : s.timers JobName.reportError = true <;>
      simp [acceptError, hf, runJob, hclosed, hen, hjob, stopScheduledJob, htm,
        handler, hrun, bodyStart, reportErrorBody, List.length_eq_zero,
        bumpError_ne_nil]
  · intro hf
    simp [acceptError, hf]
  · intro t job' h1 h2 h3 hpre h4
    simp [runJobScheduled, h1, h2, h3, h4, hpre]
  · intro t k hr' hmem
    by_cases h1 : t.closed = true
    · simp [runJob, h1] at hmem
    · by_cases h2 : (t.jobConfigs k).enabled = false
      · simp [runJob, h1, h2] at hmem
      · cases hj : t.jobs k with
        | none => simp [runJob, h1, h2, hj] at hmem
        | some job'' =>
            have e : (runJob t k true).2 =
                (stopScheduledJob t k).2 ++
                  (handler (stopScheduledJob t k).1 k).2 := by
              simp [runJob, h1, h2, hj]
            have hu : (stopScheduledJob t k).1.jobRuntime k = false := by
              by_cases htm : t.timers k = true <;>
                simp [stopScheduledJob, htm, hr']
            rw [e] at hmem
            rcases List.mem_append.mp hmem with hm | hm
            · by_cases htm : t.timers k = true <;>
                simp [stopScheduledJob, htm] at hm
            · simp only [handler, hu, Bool.false_eq_true, if_false,
                List.mem_cons] at hm
              rcases hm with hm | hm
              · simp at hm
              · obtain ⟨path, data, heq⟩ := bodyStart_request_only _ _ _ hm
                simp at heq

theorem c6_witness :
    readyState.isFirstErrorReported = false ∧
    Effect.execStart JobName.reportError ∈
      (acceptError readyState JsError.nullOrUndef).2 :=
  ⟨by decide,
    ((c6_first_error_latch readyState JsError.nullOrUndef ⟨60, true⟩
        (by decide) (by decide) (by decide) (by decide)).1 (by decide)).2.1⟩

theorem runJobScheduled_preserves (t : ClientState) (j : JobName) :
    (runJobScheduled t j).1.versionCheckResult = t.versionCheckResult ∧
    (runJobScheduled t j).1.pendingCalls = t.pendingCalls ∧
    (runJobScheduled t j).1.listeners = t.listeners ∧
    (runJobScheduled t j).1.errors = t.errors := by
  by_cases h1 : t.closed = true
  · simp [runJobScheduled, h1]
  · by_cases h2 : (t.jobConfigs j).enabled = false
    · simp [runJobScheduled, h1, h2]
    · cases hj : t.jobs j with
      | none => simp [runJobScheduled, h1, h2, hj]
      | some job =>
          by_cases htm : t.timers j = true
          · simp [runJobScheduled, h1, h2, hj, htm]
          · cases hpre : job.hasPreScheduleCb <;>
              simp [runJobScheduled, h1, h2, hj, htm, hpre]

/-- C8, counterexample: registering a listener on a concrete freshly
constructed client performs no listener invocation during the
registration step itself — the operation's effect list is empty and the
catch-up call is only placed on the deferred queue, to run as a
resolved-promise continuation after the method returns.  This refutes
the claim that the listener is synchronously invoked once, immediately,
during registration. -/
theorem c8_counterexample :
    readyState.pendingCalls = [] ∧
    (onNotificationsChanged readyState).2 = [] ∧
    (onNotificationsChanged readyState).1.pendingCalls = [0] := by
  refine ⟨by decide, by decide, by decide⟩

/-- C8, amended: registering a listener appends it to the registry and
schedules exactly one immediate catch-up invocation of it, delivered
asynchronously (a resolved-promise continuation) with the notification
state held at delivery time, which may be empty; and every successful
version-check response wholesale-replaces the notification state and
schedules exactly one further invocation per registered listener. -/
theorem c8_subscription_catchup (s : ClientState) :
    (onNotificationsChanged s).1.listeners = s.listeners ++ [s.listeners.length] ∧
    (onNotificationsChanged s).1.pendingCalls =
      s.pendingCalls ++ [s.listeners.length] ∧
    (onNotificationsChanged s).2 = [] ∧
    (∀ i rest, s.pendingCalls = i :: rest →
      drainOne s = ({ s with pendingCalls := rest },
        [Effect.listenerCall i s.versionCheckResult])) ∧
    (∀ notifs, s.jobRuntime JobName.versionCheck = true →
      (bodyComplete s JobName.versionCheck
          (BodyOutcome.success notifs)).1.versionCheckResult = notifs ∧
      (bodyComplete s JobName.versionCheck
          (BodyOutcome.success notifs)).1.pendingCalls =
        s.pendingCalls ++ s.listeners) := by
  refine ⟨rfl, rfl, rfl, ?_, ?_⟩
  · intro i rest h
    simp [drainOne, h]
  · intro notifs hr
    have e : bodyComplete s JobName.versionCheck (BodyOutcome.success notifs) =
        runJobScheduled
          { activateNewVersionInfo s notifs with
              jobRuntime :=
                upd (activateNewVersionInfo s notifs).jobRuntime
                  JobName.versionCheck false }
          JobName.versionCheck := by
      simp [bodyComplete, hr]
    rw [e]
    have p := runJobScheduled_preserves
      { activateNewVersionInfo s notifs with
          jobRuntime :=
            upd (activateNewVersionInfo s notifs).jobRuntime
              JobName.versionCheck false }
      JobName.versionCheck
    exact ⟨p.1, p.2.1⟩

theorem c8_witness :
    (onNotificationsChanged readyState).1.pendingCalls = 0 :: [] ∧
    drainOne (onNotificationsChanged readyState).1 =
      ({ (onNotificationsChanged readyState).1 with pendingCalls := [] },
        [Effect.listenerCall 0
          (onNotificationsChanged readyState).1.versionCheckResult]) :=
  ⟨by decide,
    (c8_subscription_catchup (onNotificationsChanged readyState).1).2.2.2.1
      0 [] (by decide)⟩

/-- C9: the compiled-in intervals are 3600 seconds for version-check,
counters and metrics and 60 seconds for error-report; a truthy override
value that parses as a non-negative integer replaces the default; a value
that fails to parse as an integer leaves the default in place silently
(the resolution is total and raises nothing); an absent override leaves
the default; and a registered enabled job carries exactly the resolved
interval. -/
theorem c9_interval_overrides (env : EnvMap) (c : JobConfig) (v : String)
    (n : Int) :
    ((defaultConfigs JobName.versionCheck).delaySeconds = 3600 ∧
      (defaultConfigs JobName.reportError).delaySeconds = 60 ∧
      (defaultConfigs JobName.reportCounters).delaySeconds = 3600 ∧
      (defaultConfigs JobName.reportMetrics).delaySeconds = 3600) ∧
    (env c.overrideEnvName = some v → v ≠ "" → parseIntJS v = some n →
      0 ≤ n → computeSeconds env c = n) ∧
    (env c.overrideEnvName = some v → parseIntJS v = none →
      computeSeconds env c = c.delaySeconds) ∧
    (env c.overrideEnvName = none → computeSeconds env c = c.delaySeconds) ∧
    (∀ (s : ClientState) (j : JobName), (s.jobConfigs j).enabled = true →
      (registerJob env s j).jobs j =
        some ⟨computeSeconds env (s.jobConfigs j), hasPreHook j⟩) := by
  refine ⟨⟨rfl, rfl, rfl, rfl⟩, ?_, ?_, ?_, ?_⟩
  · intro h1 h2 h3 _
    simp [computeSeconds, h1, h2, h3]
  · intro h1 h3
    by_cases h2 : v = ""
    · simp [computeSeconds, h1, h2]
    · simp [computeSeconds, h1, h2, h3]
  · intro h1
    simp [computeSeconds, h1]
  · intro s j hj
    simp [registerJob, hj]

theorem c9_witness :
    parseIntJS "120" = some 120 ∧
    computeSeconds (fun k => if k = "OV" then some "120" else none)
      ⟨true, 60, "D", "OV", false⟩ = 120 ∧
    parseIntJS "abc" = none ∧
    computeSeconds (fun k => if k = "OV" then some "abc" else none)
      ⟨true, 60, "D", "OV", false⟩ = 60 :=
  ⟨by decide,
    (c9_interval_overrides (fun k => if k = "OV" then some "120" else none)
      ⟨true, 60, "D", "OV", false⟩ "120" 120).2.1
      (by decide) (by decide) (by decide) (by decide),
    by decide,
    (c9_interval_overrides (fun k => if k = "OV" then some "abc" else none)
      ⟨true, 60, "D", "OV", false⟩ "abc" 0).2.2.1
      (by decide) (by decide)⟩

/-- C10: reportFeedback with a falsy identity returns without issuing any
request and without failing; with a truthy identity it issues exactly one
request to the feedback path whose body carries id, feedbackId and
answers, and in both cases the client state is returned unchanged. -/
theorem c10_report_feedback (s : ClientState) (fid : String) (ans : Blob) :
    ((s.id = none ∨ s.id = some "") → reportFeedback s fid ans = (s, [])) ∧
    (∀ i : String, s.id = some i → i ≠ "" →
      reportFeedback s fid ans =
        (s, [Effect.request "report/feedback"
              { id := some i, process := none, version := none, error := none,
                count := none, counters := none, metrics := none,
                feedbackId := some fid, answers := some ans }])) := by
  constructor
  · rintro (h | h) <;> simp [reportFeedback, h]
  · intro i h1 h2
    simp [reportFeedback, h1, h2]

theorem c10_witness :
    readyState.id = some "id1" ∧ ("id1" : String) ≠ "" ∧
    reportFeedback readyState "fb1" [("q1", "a1")] =
      (readyState,
        [Effect.request "report/feedback"
          { id := some "id1", process := none, version := none, error := none,
            count := none, counters := none, metrics := none,
            feedbackId := some "fb1", answers := some [("q1", "a1")] }]) :=
  ⟨by decide, by decide,
    (c10_report_feedback readyState "fb1" [("q1", "a1")]).2 "id1"
      (by decide) (by decide)⟩

end Worldvious
